import Mathlib

/-!
Verification development for the TUOL component-registry / self-improvement
repository.  The Python sources are shallowly embedded: numeric code
(`ankh_aten/metrics.py`, `backend/app/recursive_phi.py`) over `ℝ`, the
registry (`ankh_aten/registry.py`), the loaders (`ankh_aten/loaders/`) and
the control loop (`ankh_aten/self_improve/loop.py`) as explicit state
passing with `Option`/`Except` for fallible operations.  Definitions come
first (metrics, registry, loaders, loop, concrete witness data), the
theorems about them follow.
-/

noncomputable section Metrics

/-- Constitutional constant `P` (ankh_aten/metrics.py line 9): the golden
ratio as the 64-bit float literal written in the source. -/
def P : ℝ := 1.618033988749895

/-- Sigma scaling factor `S` (metrics.py line 10). -/
def S : ℝ := 1.0

/-- Gate threshold `TH` (metrics.py line 11). -/
def TH : ℝ := 0.9777

/-- Omega point `O` = 2025-12-25T00:00:00Z (metrics.py line 12), as Unix
epoch seconds; wall-clock datetimes are embedded as epoch seconds. -/
def omegaEpoch : ℝ := 1766620800

/-- Integration vector `I` (metrics.py line 15): the hard-coded
12-dimensional awareness state. -/
def I : List ℝ := [85, 62, 65, 78, 100, 100, 100, 100, 100, 95, 100, 100]

/-- Python `max(0, min(1, x))`, the clamp used throughout the sources. -/
def clamp01 (x : ℝ) : ℝ := max 0 (min 1 x)

/-- `ps(x, n)` (metrics.py lines 18-30): phi-scaling
`max(0, min(1, 1 - (1 - x) / P**n))` after clamping the input.
The Python default for `n` is 3; call sites pass it explicitly here. -/
def ps (x : ℝ) (n : ℕ) : ℝ := clamp01 (1 - (1 - clamp01 x) / P ^ n)

/-- `rd(p, t, c, d)` (metrics.py lines 33-52): Recognition-of-Done.
Python defaults: `t = 0.998`, `c = 0.999`, `d = 0.00023`; `**` on floats in
`[0,1]` is embedded as `Real.rpow`. -/
def rd (p t c d : ℝ) : ℝ :=
  S * ps (p ^ (0.5 : ℝ)) 3 * ps (t ^ (0.3 : ℝ)) 3 * ps (c ^ (0.2 : ℝ)) 3 * (1 - d)

/-- `sum(I) / (100 * len(I))` as computed inside `snapshot` (metrics.py
line 72). -/
def awareness_mean : ℝ := I.sum / (100 * (I.length : ℝ))

/-- The record returned by `snapshot()` (metrics.py lines 75-81); `g` is the
Python `int(r >= TH)` rendered as a `Bool`. -/
structure Snapshot where
  t : ℝ
  d : ℝ
  a : ℝ
  r : ℝ
  g : Bool

/-- `snapshot(now)` (metrics.py lines 55-81). `now` is the current time in
epoch seconds (Python defaults it to the wall clock). -/
def snapshot (now : ℝ) : Snapshot :=
  let d := max 0 ((omegaEpoch - now) / 86400)
  let a := awareness_mean
  let r := rd a 0.998 0.999 0.00023
  { t := now, d := d, a := a * 100, r := r, g := decide (TH ≤ r) }

/-- `PHI` (backend/app/constants.py line 18) — the same float literal as
`P` in metrics.py. -/
def PHI : ℝ := 1.618033988749895

/-- `phi_smooth_recursive(x, n)` (backend/app/recursive_phi.py lines
19-36): clamp the input, return it at depth 0, otherwise recurse on
`1 - (1 - x) / PHI` with depth `n - 1`. -/
def phi_smooth_recursive : ℝ → ℕ → ℝ
  | x, 0 => clamp01 x
  | x, n + 1 => phi_smooth_recursive (1 - (1 - clamp01 x) / PHI) n

/-- `phi_smooth_iterative(x, n)` (backend/app/recursive_phi.py lines
52-61): clamp the input, apply `x ↦ 1 - (1 - x) / PHI` `n` times in a loop,
clamp the output. -/
def phi_smooth_iterative (x : ℝ) (n : ℕ) : ℝ :=
  clamp01 ((fun y => 1 - (1 - y) / PHI)^[n] (clamp01 x))

end Metrics

/-- A parsed YAML/JSON value, as found in component configurations. -/
inductive Val where
  | vstr : String → Val
  | vint : Int → Val
  | vbool : Bool → Val
  | vdict : List (String × Val) → Val
  | vlist : List Val → Val

/-- Dict lookup `d[k]` / `d.get(k)`. -/
def dlookup {α : Type} (k : String) : List (String × α) → Option α
  | [] => none
  | (k', v) :: rest => if k' = k then some v else dlookup k rest

/-- Dict update `d[k] = v`: replace in place if the key exists, else
append (Python dicts preserve insertion order). -/
def dinsert {α : Type} (k : String) (v : α) : List (String × α) → List (String × α)
  | [] => [(k, v)]
  | (k', v') :: rest => if k' = k then (k, v) :: rest else (k', v') :: dinsert k v rest

/-- `Component` (registry.py lines 13-22). -/
structure Component where
  uid : String
  kind : String
  conf : List (String × Val)

/-- `Registry.__init__` state (registry.py lines 35-37): `components` maps
uid → Component, `loaders` maps kind → dotted loader path. -/
structure Registry where
  components : List (String × Component)
  loaders : List (String × String)

/-- The empty registry. -/
def Registry.empty : Registry := ⟨[], []⟩

/-- `Registry.use(kind, loader)` (registry.py lines 39-51). -/
def Registry.use (reg : Registry) (kind loader : String) : Registry :=
  { reg with loaders := dinsert kind loader reg.loaders }

/-- One entry of the parsed manifest: `row["id"]` / `row["kind"]` may be
absent, `row.get("config", {})` defaults to the empty dict.  Manifest file
reading and YAML/JSON text parsing are external concerns; the embedding
starts from the parsed `data["components"]` row list. -/
structure ManifestEntry where
  id : Option String
  kind : Option String
  config : List (String × Val)

/-- Python `KeyError` raised by a missing dict subscript; it carries only
the missing key. -/
inductive ManifestErr where
  | keyError : String → ManifestErr
deriving DecidableEq

/-- `Registry.register_manifest` (registry.py lines 53-75) over the parsed
rows.  `row["id"]` (then `row["kind"]`) raises `KeyError` when absent,
aborting the loop; rows already processed stay registered, so the partial
state is returned alongside the error. -/
def Registry.register_manifest : List ManifestEntry → Registry → Registry × Option ManifestErr
  | [], reg => (reg, none)
  | row :: rest, reg =>
    match row.id with
    | none => (reg, some (ManifestErr.keyError "id"))
    | some i =>
      match row.kind with
      | none => (reg, some (ManifestErr.keyError "kind"))
      | some k =>
        Registry.register_manifest rest
          { reg with components := dinsert i ⟨i, k, row.config⟩ reg.components }

/-- `Registry.list_components` (registry.py lines 100-102). -/
def Registry.list_components (reg : Registry) : List String :=
  reg.components.map Prod.fst

/-- `Registry.component_count` (registry.py lines 104-106). -/
def Registry.component_count (reg : Registry) : ℕ :=
  reg.components.length

/-- The `KeyError` failures of `Registry.materialize`: the design's
`NotFound`, carrying the missing uid or kind. -/
inductive RegErr where
  | notFound : String → RegErr
deriving DecidableEq

/-- `Registry.materialize(uid)` (registry.py lines 77-98).  The dynamic
importing of the loader class and its `build` call are abstracted as the
collaborator `loadBuild` (dotted loader path and component in, build
result out); the two dict subscripts raise `KeyError` (`NotFound`) when
the uid, respectively the kind binding, is absent. -/

def Registry.materialize {β : Type} (loadBuild : String → Component → β)
    (reg : Registry) (uid : String) : Except RegErr β :=
  match dlookup uid reg.components with
  | none => Except.error (RegErr.notFound uid)
  | some c =>
    match dlookup c.kind reg.loaders with
    | none => Except.error (RegErr.notFound c.kind)
    | some lpath => Except.ok (loadBuild lpath c)

/-- Concrete loader collaborator for the `materialize_dispatch` witness:
pairs the loader path with the component uid. -/
def loadBuildW (lpath : String) (c : Component) : String × String := (lpath, c.uid)

/-- Concrete registry for the `materialize_dispatch` witness: one `yaml`
component whose kind has a bound loader. -/
def regW : Registry :=
  { components := [("cfg-1", ⟨"cfg-1", "yaml", []⟩)],
    loaders := [("yaml", "ankh_aten.loaders.yaml_loader.YamlLoader")] }

/-- Concrete registry whose single component has an unbound kind. -/
def regNoLoader : Registry :=
  { components := [("cfg-1", ⟨"cfg-1", "yaml", []⟩)], loaders := [] }

/-- Concrete well-formed entry for the C7 witness. -/
def entryGood : ManifestEntry := ⟨some "alpha", some "yaml", []⟩

/-- Concrete entry missing `id` for the C7 witness. -/
def entryBad : ManifestEntry := ⟨none, some "yaml", []⟩

/-- The manifest used for the C8 counterexample: two well-formed entries
sharing the id `"a"`. -/
def dupManifest : List ManifestEntry :=
  [⟨some "a", some "yaml", []⟩, ⟨some "a", some "python", []⟩]

/-- Concrete entries for the C8 witness. -/
def entAlpha : ManifestEntry := ⟨some "a", some "yaml", []⟩

/-- Second concrete entry for the C8 witness, distinct id. -/
def entBeta : ManifestEntry := ⟨some "b", some "python", []⟩

/-- C8 witness overwrite entry: re-registers the uid already present in
`regW` under a different kind. -/
def entOver : ManifestEntry := ⟨some "cfg-1", some "http", [("url", Val.vstr "x")]⟩

/-- The Python exception kinds relevant to the loaders. -/
inductive PyExc where
  | valueError : PyExc
  | importError : PyExc
  | attributeError : PyExc
  | typeError : PyExc
  | osError : PyExc
  | yamlError : String → PyExc
  | otherExc : String → PyExc
deriving DecidableEq

/-- Outcome of a `build()` call: a returned result dict, or an exception
escaping the call. -/
inductive BuildOutcome where
  | returned : List (String × Val) → BuildOutcome
  | raised : PyExc → BuildOutcome

/-- `conf.get(key, "")` restricted to string-valued entries (the loaders
read `path` / `factory` as strings; an absent key defaults to `""`). -/
def confGetStr (conf : List (String × Val)) (key : String) : String :=
  match dlookup key conf with
  | some (Val.vstr s) => s
  | _ => ""

/-- A human-readable rendering of an exception, standing in for Python's
`str(e)` inside the loaders' error messages. -/
def pyExcMsg : PyExc → String
  | PyExc.valueError => "ValueError"
  | PyExc.importError => "ImportError"
  | PyExc.attributeError => "AttributeError"
  | PyExc.typeError => "TypeError"
  | PyExc.osError => "OSError"
  | PyExc.yamlError m => m
  | PyExc.otherExc m => m

/-- Python `factory_path.rsplit(".", 1)` destructured into two names:
`some (modpath, funcname)` splits at the LAST dot; `none` when the string
holds no dot, in which case the two-name unpacking raises `ValueError`. -/
def rsplitLastDot : List Char → Option (List Char × List Char)
  | [] => none
  | c :: cs =>
    match rsplitLastDot cs with
    | some (l, r) => some (c :: l, r)
    | none => if c = '.' then some ([], cs) else none

/-- String-level wrapper for `rsplitLastDot`. -/
def rsplitDot (s : String) : Option (String × String) :=
  match rsplitLastDot s.data with
  | none => none
  | some (l, r) => some (⟨l⟩, ⟨r⟩)

/-- Exception kinds caught by `PythonLoader.build`'s
`except (ImportError, AttributeError, TypeError)` clause
(python_loader.py line 63). -/
def pyCaught (e : PyExc) : Bool :=
  e = PyExc.importError ∨ e = PyExc.attributeError ∨ e = PyExc.typeError

/-- `PythonLoader.build` (python_loader.py lines 19-69).  `resolve` stands
for `import_module(modpath)` + `getattr(mod, funcname)`; `invoke` for the
factory call (the `isinstance` dispatch on `args` merely selects the
calling convention and is absorbed into the oracle).  Both oracles report
failure as the exception they raise; only `ImportError`, `AttributeError`
and `TypeError` are converted to the error dict, anything else escapes.
The `rsplit` two-name unpacking itself raises `ValueError` on a dot-free
factory path, and `ValueError` is not in the except clause. -/
def PythonLoader.build (resolve : String → String → Except PyExc Unit)
    (invoke : String → Except PyExc Val) (c : Component) : BuildOutcome :=
  let fp := confGetStr c.conf "factory"
  if fp = "" then
    BuildOutcome.returned
      [("error", Val.vstr "No factory path specified"),
       ("component", Val.vstr c.uid), ("kind", Val.vstr "python")]
  else
    match rsplitDot fp with
    | none => BuildOutcome.raised PyExc.valueError
    | some (modpath, funcname) =>
      let errDict := fun (e : PyExc) =>
        BuildOutcome.returned
          [("error", Val.vstr ("Python factory error: " ++ pyExcMsg e)),
           ("component", Val.vstr c.uid), ("kind", Val.vstr "python"),
           ("factory", Val.vstr fp)]
      match resolve modpath funcname with
      | Except.error e => if pyCaught e then errDict e else BuildOutcome.raised e
      | Except.ok _ =>
        match invoke fp with
        | Except.error e => if pyCaught e then errDict e else BuildOutcome.raised e
        | Except.ok v =>
          BuildOutcome.returned
            [("component", Val.vstr c.uid), ("kind", Val.vstr "python"),
             ("factory", Val.vstr fp), ("result", v)]

/-- `YamlLoader.build` (yaml_loader.py lines 18-57).  `pathExists` is
`Path.exists`, `cwdJoin` the `Path.cwd() / path` fallback, `readParse` is
`read_text` + `yaml.safe_load` (raising `OSError` for I/O failure — which
the source does not catch — or `yaml.YAMLError`, which it converts to the
error dict). -/
def YamlLoader.build (pathExists : String → Bool) (cwdJoin : String → String)
    (readParse : String → Except PyExc Val) (c : Component) : BuildOutcome :=
  let p0 := confGetStr c.conf "path"
  let p := if pathExists p0 then p0 else cwdJoin p0
  if pathExists p = false then
    BuildOutcome.returned
      [("error", Val.vstr ("YAML file not found: " ++ p)),
       ("component", Val.vstr c.uid), ("kind", Val.vstr "yaml"),
       ("config", Val.vdict c.conf)]
  else
    match readParse p with
    | Except.ok v =>
      BuildOutcome.returned
        [("component", Val.vstr c.uid), ("kind", Val.vstr "yaml"),
         ("data", v), ("source", Val.vstr p)]
    | Except.error (PyExc.yamlError m) =>
      BuildOutcome.returned
        [("error", Val.vstr ("YAML parsing error: " ++ m)),
         ("component", Val.vstr c.uid), ("kind", Val.vstr "yaml"),
         ("source", Val.vstr p)]
    | Except.error e => BuildOutcome.raised e

noncomputable section Loop

/-- Policy constants `POLICIES` (loop.py lines 14-18). -/
def min_gate : ℝ := 0.9777

/-- `POLICIES["experiments_per_cycle"]`. -/
def experiments_per_cycle : ℕ := 3

/-- `POLICIES["rollforward_threshold"]`. -/
def rollforward_threshold : ℝ := 0.002

/-- An experiment dict produced by `plan` (loop.py lines 102-133). -/
structure Experiment where
  type : String
  description : String
  expected_gain : ℝ

/-- An executed-experiment dict produced by `act` (loop.py lines 161-166). -/
structure ExperimentResult where
  type : String
  description : String
  executed : Bool
  actual_gain : ℝ

/-- Payload values of the audit events written by `log_event`. -/
inductive PVal where
  | pstr : String → PVal
  | preal : ℝ → PVal
  | pnat : ℕ → PVal
  | pbool : Bool → PVal
  | plist : List PVal → PVal

/-- One audit record (loop.py lines 56-61).  The wall-clock `timestamp`
field is not modelled; `cycle` and `type` and the `data` payload are. -/
structure AuditEvent where
  cycle : ℕ
  type : String
  data : List (String × PVal)

/-- The mutable state of `SelfImprovementLoop` (loop.py lines 40-46): the
held registry, the three counters, and the appended audit log. -/
structure LoopState where
  registry : Registry
  cycle_count : ℕ
  total_experiments : ℕ
  improvements : ℕ
  events : List AuditEvent

/-- `log_event` (loop.py lines 48-64): append one record carrying the
current cycle count. -/
def log_event (st : LoopState) (ty : String) (data : List (String × PVal)) : LoopState :=
  { st with events := st.events ++ [⟨st.cycle_count, ty, data⟩] }

/-- `reflect` (loop.py lines 66-83): take a snapshot at time `now`, log it
with the registry's component count. -/
def reflect (now : ℝ) (st : LoopState) : Snapshot × LoopState :=
  let snap := snapshot now
  (snap, log_event st "reflect"
    [("r_dod", PVal.preal snap.r), ("awareness", PVal.preal snap.a),
     ("gate_status", PVal.pbool snap.g), ("days_to_omega", PVal.preal snap.d),
     ("components", PVal.pnat st.registry.component_count)])

/-- The below-gate experiment set (loop.py lines 100-116). -/
def below_gate_experiments : List Experiment :=
  [⟨"expand_manifest", "Add high-value components to manifest", 0.003⟩,
   ⟨"optimize_loaders", "Tune loader performance and caching", 0.002⟩,
   ⟨"refine_metrics", "Adjust phi-scaling parameters", 0.001⟩]

/-- The above-gate experiment set (loop.py lines 117-133). -/
def above_gate_experiments : List Experiment :=
  [⟨"discover_components", "Search for new quantum-coherent components", 0.002⟩,
   ⟨"tune_awareness", "Balance integration vector dimensions", 0.001⟩,
   ⟨"cache_optimization", "Implement component materialization cache", 0.001⟩]

/-- `plan` (loop.py lines 85-144): pick the experiment set by comparing
the snapshot's fitness with the gate, truncate to the policy count, log. -/
def plan (snap : Snapshot) (st : LoopState) : List Experiment × LoopState :=
  let gate_needed := min_gate - snap.r
  let chosen := if snap.r < min_gate then below_gate_experiments else above_gate_experiments
  let experiments := chosen.take experiments_per_cycle
  (experiments, log_event st "plan"
    [("gate_needed", PVal.preal (max 0 gate_needed)),
     ("experiments", PVal.pnat experiments.length),
     ("experiment_types", PVal.plist (experiments.map (fun e => PVal.pstr e.type)))])

/-- `act` (loop.py lines 146-171): simulate every experiment
(`random.uniform(0, expected_gain * 1.5)` is the injected outcome strategy
`sample`), logging one event per executed experiment. -/
def act (sample : Experiment → ℝ) (exps : List Experiment) (st : LoopState) :
    List ExperimentResult × LoopState :=
  let results := exps.map fun e =>
    (⟨e.type, e.description, true, sample e⟩ : ExperimentResult)
  (results,
   { st with
     events := st.events ++ results.map (fun r =>
       ⟨st.cycle_count, "act",
        [("type", PVal.pstr r.type), ("description", PVal.pstr r.description),
         ("executed", PVal.pbool r.executed),
         ("actual_gain", PVal.preal r.actual_gain)]⟩) })

/-- The summary dict returned by `learn` (loop.py lines 198-205). -/
structure LearnSummary where
  r_before : ℝ
  r_after : ℝ
  r_gain : ℝ
  kept : ℕ
  rejected : ℕ
  improvements : ℕ

/-- `learn` (loop.py lines 173-209): resnapshot at time `now2`, partition
the results by the rollforward threshold, bump `improvements`, log the
summary. -/
def learn (now2 : ℝ) (results : List ExperimentResult) (snap_before : Snapshot)
    (st : LoopState) : LearnSummary × LoopState :=
  let snap_after := snapshot now2
  let r_gain := snap_after.r - snap_before.r
  let kept := results.filter (fun r => decide (rollforward_threshold ≤ r.actual_gain))
  let rejected := results.filter (fun r => decide (r.actual_gain < rollforward_threshold))
  let improvements := st.improvements + kept.length
  let summary : LearnSummary :=
    ⟨snap_before.r, snap_after.r, r_gain, kept.length, rejected.length, improvements⟩
  (summary, log_event { st with improvements := improvements } "learn"
    [("r_before", PVal.preal summary.r_before), ("r_after", PVal.preal summary.r_after),
     ("r_gain", PVal.preal summary.r_gain), ("kept", PVal.pnat summary.kept),
     ("rejected", PVal.pnat summary.rejected),
     ("improvements", PVal.pnat summary.improvements)])

/-- The per-cycle summary returned by `run_cycle` (loop.py lines 233-238). -/
structure CycleSummary where
  cycle : ℕ
  experiments : ℕ
  r_gain : ℝ
  improvements : ℕ

/-- `run_cycle` (loop.py lines 211-238): bump the cycle counter, then
reflect → plan → act (accumulating `total_experiments`) → learn.  `now1`
and `now2` are the wall-clock instants of the two snapshots. -/
def run_cycle (sample : Experiment → ℝ) (now1 now2 : ℝ) (st : LoopState) :
    CycleSummary × LoopState :=
  let st0 := { st with cycle_count := st.cycle_count + 1 }
  let rs := reflect now1 st0
  let ps := plan rs.1 rs.2
  let as_ := act sample ps.1 ps.2
  let st1 := { as_.2 with total_experiments := as_.2.total_experiments + as_.1.length }
  let ls := learn now2 as_.1 rs.1 st1
  (⟨ls.2.cycle_count, ps.1.length, ls.1.r_gain, ls.1.improvements⟩, ls.2)

/-- The loop body of `run` (loop.py lines 250-256), indexed by the cycle
number `i` so every cycle can see fresh wall-clock times (`times i` gives
the instants of the reflect snapshot, the learn snapshot, and the
early-exit check snapshot) and fresh randomness (`sample i`). -/
def run_from (sample : ℕ → Experiment → ℝ) (times : ℕ → ℝ × ℝ × ℝ) :
    ℕ → ℕ → LoopState → LoopState
  | _, 0, st => st
  | i, m + 1, st =>
    let st1 := (run_cycle (sample i) (times i).1 (times i).2.1 st).2
    if 0.999 ≤ (snapshot (times i).2.2).r then st1
    else run_from sample times (i + 1) m st1

/-- `run(max_cycles)` (loop.py lines 240-263). -/
def run (sample : ℕ → Experiment → ℝ) (times : ℕ → ℝ × ℝ × ℝ)
    (max_cycles : ℕ) (st : LoopState) : LoopState :=
  run_from sample times 0 max_cycles st

end Loop

/-- The experiment list every `plan` phase produces (depends only on the
snapshot). -/
noncomputable def planned_experiments (snap : Snapshot) : List Experiment :=
  (if snap.r < min_gate then below_gate_experiments else above_gate_experiments).take
    experiments_per_cycle

/-- Number of audit events of a given phase type. -/
def countEvents (evs : List AuditEvent) (ty : String) : ℕ :=
  (evs.filter (fun e => decide (e.type = ty))).length

theorem clamp01_nonneg (x : ℝ) : 0 ≤ clamp01 x := le_max_left 0 _

theorem clamp01_le_one (x : ℝ) : clamp01 x ≤ 1 :=
  max_le zero_le_one (min_le_left 1 x)

theorem clamp01_of_mem {x : ℝ} (h0 : 0 ≤ x) (h1 : x ≤ 1) : clamp01 x = x := by
  unfold clamp01
  rw [min_eq_right h1, max_eq_right h0]

theorem clamp01_pos {x : ℝ} (h : 0 < x) : 0 < clamp01 x :=
  lt_of_lt_of_le (lt_min one_pos h) (le_max_right 0 _)

theorem clamp01_lt {x b : ℝ} (hb : 0 < b) (h : x < b) : clamp01 x < b :=
  max_lt hb (lt_of_le_of_lt (min_le_right 1 x) h)

theorem one_lt_P : (1 : ℝ) < P := by norm_num [P]

theorem P_pos : (0 : ℝ) < P := lt_trans one_pos one_lt_P

theorem one_le_P_pow (n : ℕ) : (1 : ℝ) ≤ P ^ n := one_le_pow₀ one_lt_P.le

theorem P_pow_pos (n : ℕ) : (0 : ℝ) < P ^ n := lt_of_lt_of_le one_pos (one_le_P_pow n)

theorem PHI_eq_P : PHI = P := rfl

/-- For a clamped input the pre-clamp value of `ps` already lies in `[0,1]`,
so the outer clamp of `ps` is the identity there. -/
theorem ps_eq_of_clamped (x : ℝ) (n : ℕ) :
    ps x n = 1 - (1 - clamp01 x) / P ^ n := by
  unfold ps
  have h0 : 0 ≤ 1 - clamp01 x := by linarith [clamp01_le_one x]
  have h1 : 1 - clamp01 x ≤ 1 := by linarith [clamp01_nonneg x]
  have hq0 : 0 ≤ (1 - clamp01 x) / P ^ n := div_nonneg h0 (P_pow_pos n).le
  have hq1 : (1 - clamp01 x) / P ^ n ≤ 1 :=
    div_le_one_of_le₀ (le_trans h1 (one_le_P_pow n)) (P_pow_pos n).le
  exact clamp01_of_mem (by linarith) (by linarith)

theorem ps_nonneg (x : ℝ) (n : ℕ) : 0 ≤ ps x n := clamp01_nonneg _

theorem ps_le_one (x : ℝ) (n : ℕ) : ps x n ≤ 1 := clamp01_le_one _

/-- One φ-scaling step keeps `[0,1]` stable (the constant `PHI` exceeds 1,
so `(1-u)/PHI` stays in `[0,1]` for `u ∈ [0,1]`). -/
theorem phi_step_mem {u : ℝ} (h0 : 0 ≤ u) (h1 : u ≤ 1) :
    0 ≤ 1 - (1 - u) / PHI ∧ 1 - (1 - u) / PHI ≤ 1 := by
  have hP : (0 : ℝ) < PHI := by rw [PHI_eq_P]; exact P_pos
  have hq0 : 0 ≤ (1 - u) / PHI := div_nonneg (by linarith) hP.le
  have hq1 : (1 - u) / PHI ≤ 1 := by
    apply div_le_one_of_le₀ _ hP.le
    have := PHI_eq_P ▸ one_lt_P
    linarith
  constructor <;> linarith

/-- Closed form of the explicitly recursive smoother: `n` recursive
applications compute `1 - (1 - clamp01 x) / P ^ n`. -/
theorem phi_smooth_recursive_formula :
    ∀ (n : ℕ) (x : ℝ), phi_smooth_recursive x n = 1 - (1 - clamp01 x) / P ^ n := by
  intro n
  induction n with
  | zero =>
    intro x
    simp [phi_smooth_recursive]
  | succ m ih =>
    intro x
    have hmem := phi_step_mem (clamp01_nonneg x) (clamp01_le_one x)
    have hcl : clamp01 (1 - (1 - clamp01 x) / PHI) = 1 - (1 - clamp01 x) / PHI :=
      clamp01_of_mem hmem.1 hmem.2
    have hP : (P : ℝ) ≠ 0 := ne_of_gt P_pos
    have hPn : (P : ℝ) ^ m ≠ 0 := ne_of_gt (P_pow_pos m)
    rw [phi_smooth_recursive, ih, hcl, PHI_eq_P, pow_succ]
    field_simp
    ring

/-- Closed form of the loop body iterated from a point of `[0,1]`. -/
theorem phi_iter_formula :
    ∀ (n : ℕ) (u : ℝ), 0 ≤ u → u ≤ 1 →
      (fun y => 1 - (1 - y) / PHI)^[n] u = 1 - (1 - u) / P ^ n := by
  intro n
  induction n with
  | zero =>
    intro u _ _
    simp
  | succ m ih =>
    intro u h0 h1
    have hmem := phi_step_mem h0 h1
    have hP : (P : ℝ) ≠ 0 := ne_of_gt P_pos
    have hPn : (P : ℝ) ^ m ≠ 0 := ne_of_gt (P_pow_pos m)
    rw [Function.iterate_succ_apply, ih _ hmem.1 hmem.2]
    show 1 - (1 - (1 - (1 - u) / PHI)) / P ^ m = 1 - (1 - u) / P ^ (m + 1)
    rw [PHI_eq_P, pow_succ]
    field_simp
    ring

/-- C10: for every `x ∈ [0,1]` (and in fact every real `x`, both sides
clamping their input) and every depth `n ≥ 0`, the closed-form
`ps(x, n) = 1 - (1-x)/φ^n` of metrics.py equals `n` sequential
applications of `f(y) = 1 - (1-y)/φ` with clamping at every step, as
implemented by `phi_smooth_recursive` and `phi_smooth_iterative` in
backend/app/recursive_phi.py. -/
theorem ps_refines_phi_smooth (x : ℝ) (n : ℕ) :
    phi_smooth_recursive x n = ps x n ∧ phi_smooth_iterative x n = ps x n := by
  have hform := phi_smooth_recursive_formula n x
  have hiter := phi_iter_formula n (clamp01 x) (clamp01_nonneg x) (clamp01_le_one x)
  have hps := ps_eq_of_clamped x n
  constructor
  · rw [hform, hps]
  · unfold phi_smooth_iterative
    rw [hiter, ← hps]
    exact clamp01_of_mem (ps_nonneg x n) (ps_le_one x n)

/-- C1 counterexample: the spec asserts `compress(0, depth) = 0` for every
depth, but at the default depth 3 the code yields
`ps 0 3 = 1 - 1/φ³ ≈ 0.764 ≠ 0`. -/
theorem ps_zero_at_depth_three_ne_zero : ps 0 3 ≠ 0 := by
  have hcl : clamp01 (0 : ℝ) = 0 := clamp01_of_mem le_rfl zero_le_one
  have h : ps 0 3 = 1 - 1 / P ^ 3 := by
    rw [ps_eq_of_clamped, hcl]
    ring
  have h3 : (1 : ℝ) < P ^ 3 :=
    lt_of_lt_of_le one_lt_P (le_self_pow₀ one_lt_P.le (by norm_num))
  have hlt : 1 / P ^ 3 < 1 := (div_lt_one (P_pow_pos 3)).mpr h3
  rw [h]
  have hpos : 0 < 1 - 1 / P ^ 3 := by linarith
  exact ne_of_gt hpos

/-- C1 (amended): for `x, y ∈ [0,1]` and EVERY depth `n ≥ 0`:
`ps x n ∈ [0,1]`, `ps 1 n = 1`, and `ps` is strictly increasing in its
first argument (for every depth, so in particular for depth > 0); but
`ps 0 n = 1 - 1/φ^n`, which is 0 if and only if the depth is 0, and
strictly positive for depth > 0 (the map contracts toward 1, it does not
fix 0). -/
theorem compress_contract (x y : ℝ) (n : ℕ)
    (hx0 : 0 ≤ x) (hx1 : x ≤ 1) (hy1 : y ≤ 1) (hxy : x < y) :
    (0 ≤ ps x n ∧ ps x n ≤ 1) ∧ ps 1 n = 1 ∧
      ps 0 n = 1 - 1 / P ^ n ∧ (ps 0 n = 0 ↔ n = 0) ∧ ps x n < ps y n := by
  have hy0 : 0 ≤ y := le_trans hx0 hxy.le
  have hclx : clamp01 x = x := clamp01_of_mem hx0 hx1
  have hcly : clamp01 y = y := clamp01_of_mem hy0 hy1
  have hzero : ps 0 n = 1 - 1 / P ^ n := by
    rw [ps_eq_of_clamped, clamp01_of_mem le_rfl zero_le_one]
    ring
  refine ⟨⟨ps_nonneg x n, ps_le_one x n⟩, ?_, hzero, ⟨?_, ?_⟩, ?_⟩
  · rw [ps_eq_of_clamped, clamp01_of_mem zero_le_one le_rfl]
    ring
  · intro h
    by_contra hne
    have hgt : (1 : ℝ) < P ^ n := one_lt_pow₀ one_lt_P hne
    have hlt : 1 / P ^ n < 1 := (div_lt_one (P_pow_pos n)).mpr hgt
    rw [hzero] at h
    linarith
  · intro h
    rw [hzero, h, pow_zero]
    norm_num
  · rw [ps_eq_of_clamped, ps_eq_of_clamped, hclx, hcly]
    have hdiv : (1 - y) / P ^ n < (1 - x) / P ^ n :=
      (div_lt_div_iff_of_pos_right (P_pow_pos n)).mpr (by linarith)
    linarith

/-- Witness for `compress_contract` at `x = 0`, `y = 1`, once at depth 0
and once at depth 3. -/
theorem compress_contract_witness :
    ((0 ≤ ps 0 0 ∧ ps 0 0 ≤ 1) ∧ ps 1 0 = 1 ∧
      ps 0 0 = 1 - 1 / P ^ 0 ∧ (ps 0 0 = 0 ↔ 0 = 0) ∧ ps 0 0 < ps 1 0)
    ∧ ((0 ≤ ps 0 3 ∧ ps 0 3 ≤ 1) ∧ ps 1 3 = 1 ∧
      ps 0 3 = 1 - 1 / P ^ 3 ∧ (ps 0 3 = 0 ↔ 3 = 0) ∧ ps 0 3 < ps 1 3) :=
  ⟨compress_contract 0 1 0 le_rfl zero_le_one le_rfl zero_lt_one,
   compress_contract 0 1 3 le_rfl zero_le_one le_rfl zero_lt_one⟩

/-- C5: for `p, t, c, d ∈ [0,1]`, `rd p t c d` equals
`ps(p^0.5) * ps(t^0.3) * ps(c^0.2) * (1 - d)` (the `S = 1` sigma factor is
absorbed) and the result lies in `[0,1]`. -/
theorem rd_eq_and_bounded (p t c d : ℝ)
    (hp0 : 0 ≤ p) (hp1 : p ≤ 1) (ht0 : 0 ≤ t) (ht1 : t ≤ 1)
    (hc0 : 0 ≤ c) (hc1 : c ≤ 1) (hd0 : 0 ≤ d) (hd1 : d ≤ 1) :
    rd p t c d =
        ps (p ^ (0.5 : ℝ)) 3 * ps (t ^ (0.3 : ℝ)) 3 * ps (c ^ (0.2 : ℝ)) 3 * (1 - d)
      ∧ 0 ≤ rd p t c d ∧ rd p t c d ≤ 1 := by
  have hS : S = 1 := by norm_num [S]
  have heq : rd p t c d =
      ps (p ^ (0.5 : ℝ)) 3 * ps (t ^ (0.3 : ℝ)) 3 * ps (c ^ (0.2 : ℝ)) 3 * (1 - d) := by
    unfold rd
    rw [hS]
    ring
  have ha0 := ps_nonneg (p ^ (0.5 : ℝ)) 3
  have ha1 := ps_le_one (p ^ (0.5 : ℝ)) 3
  have hb0 := ps_nonneg (t ^ (0.3 : ℝ)) 3
  have hb1 := ps_le_one (t ^ (0.3 : ℝ)) 3
  have hc0p := ps_nonneg (c ^ (0.2 : ℝ)) 3
  have hc1p := ps_le_one (c ^ (0.2 : ℝ)) 3
  have hd0p : 0 ≤ 1 - d := by linarith
  have hd1p : 1 - d ≤ 1 := by linarith
  refine ⟨heq, ?_, ?_⟩
  · rw [heq]
    positivity
  · rw [heq]
    calc ps (p ^ (0.5 : ℝ)) 3 * ps (t ^ (0.3 : ℝ)) 3 * ps (c ^ (0.2 : ℝ)) 3 * (1 - d)
        ≤ 1 * 1 * 1 * 1 := by
          gcongr
    _ = 1 := by ring

/-- Witness for `rd_eq_and_bounded` at `p = t = c = 1`, `d = 0`. -/
theorem rd_eq_and_bounded_witness :
    rd 1 1 1 0 =
        ps ((1 : ℝ) ^ (0.5 : ℝ)) 3 * ps ((1 : ℝ) ^ (0.3 : ℝ)) 3 *
          ps ((1 : ℝ) ^ (0.2 : ℝ)) 3 * (1 - 0)
      ∧ 0 ≤ rd 1 1 1 0 ∧ rd 1 1 1 0 ≤ 1 :=
  rd_eq_and_bounded 1 1 1 0 zero_le_one le_rfl zero_le_one le_rfl
    zero_le_one le_rfl le_rfl zero_le_one

theorem dlookup_dinsert_self {α : Type} (k : String) (v : α) (l : List (String × α)) :
    dlookup k (dinsert k v l) = some v := by
  induction l with
  | nil => simp [dinsert, dlookup]
  | cons hd tl ih =>
    obtain ⟨k', v'⟩ := hd
    by_cases h : k' = k
    · simp [dinsert, dlookup, h]
    · simp [dinsert, dlookup, h, ih]

theorem dlookup_dinsert_ne {α : Type} {j k : String} (v : α) (l : List (String × α))
    (h : j ≠ k) : dlookup j (dinsert k v l) = dlookup j l := by
  have hkj : k ≠ j := Ne.symm h
  induction l with
  | nil => simp [dinsert, dlookup, hkj]
  | cons hd tl ih =>
    obtain ⟨k', v'⟩ := hd
    by_cases hk : k' = k
    · subst hk
      simp [dinsert, dlookup, hkj]
    · simp [dinsert, dlookup, hk, ih]

theorem length_dinsert_of_mem {α : Type} {k : String} (v : α) {l : List (String × α)}
    (h : (dlookup k l).isSome) : (dinsert k v l).length = l.length := by
  induction l with
  | nil => simp [dlookup] at h
  | cons hd tl ih =>
    obtain ⟨k', v'⟩ := hd
    by_cases hk : k' = k
    · simp [dinsert, hk]
    · simp only [dlookup, hk, if_false] at h
      simp [dinsert, hk, ih h]

theorem length_dinsert_of_fresh {α : Type} {k : String} (v : α) {l : List (String × α)}
    (h : dlookup k l = none) : (dinsert k v l).length = l.length + 1 := by
  induction l with
  | nil => simp [dinsert]
  | cons hd tl ih =>
    obtain ⟨k', v'⟩ := hd
    by_cases hk : k' = k
    · simp [dlookup, hk] at h
    · simp only [dlookup, hk, if_false] at h
      simp [dinsert, hk, ih h]

theorem mem_map_fst_dinsert {α : Type} {j k : String} (v : α) (l : List (String × α)) :
    j ∈ (dinsert k v l).map Prod.fst ↔ j = k ∨ j ∈ l.map Prod.fst := by
  induction l with
  | nil => simp [dinsert]
  | cons hd tl ih =>
    obtain ⟨k', v'⟩ := hd
    by_cases hk : k' = k
    · subst hk
      simp [dinsert]
    · simp [dinsert, hk, ih]
      tauto

theorem nodup_map_fst_dinsert {α : Type} {k : String} (v : α) {l : List (String × α)}
    (h : (l.map Prod.fst).Nodup) : ((dinsert k v l).map Prod.fst).Nodup := by
  induction l with
  | nil => simp [dinsert]
  | cons hd tl ih =>
    obtain ⟨k', v'⟩ := hd
    simp only [List.map_cons, List.nodup_cons] at h
    by_cases hk : k' = k
    · subst hk
      simpa [dinsert] using h
    · simp only [dinsert, hk, if_false, List.map_cons, List.nodup_cons]
      refine ⟨?_, ih h.2⟩
      rw [mem_map_fst_dinsert]
      rintro (rfl | hmem)
      · exact hk rfl
      · exact h.1 hmem

/-- Registering any manifest preserves the no-duplicate-uid invariant of
the component dict. -/
theorem register_manifest_nodup :
    ∀ (entries : List ManifestEntry) (reg : Registry),
      (reg.components.map Prod.fst).Nodup →
      (((Registry.register_manifest entries reg).1.components.map Prod.fst)).Nodup := by
  intro entries
  induction entries with
  | nil => intro reg h; exact h
  | cons row rest ih =>
    intro reg h
    match hid : row.id with
    | none => simpa [Registry.register_manifest, hid] using h
    | some i =>
      match hk : row.kind with
      | none => simpa [Registry.register_manifest, hid, hk] using h
      | some k =>
        simpa [Registry.register_manifest, hid, hk] using
          ih _ (nodup_map_fst_dinsert _ h)

/-- Registering entries with fresh, pairwise-distinct ids grows the
component dict by exactly the number of entries. -/
theorem register_manifest_count_aux :
    ∀ (entries : List ManifestEntry) (reg : Registry),
      (∀ x ∈ entries, x.id.isSome ∧ x.kind.isSome) →
      (entries.filterMap ManifestEntry.id).Nodup →
      (∀ j ∈ entries.filterMap ManifestEntry.id, dlookup j reg.components = none) →
      (Registry.register_manifest entries reg).1.components.length
        = reg.components.length + entries.length := by
  intro entries
  induction entries with
  | nil => intro reg _ _ _; simp [Registry.register_manifest]
  | cons row rest ih =>
    intro reg hw hnd hfresh
    obtain ⟨hidS, hkS⟩ := hw row (List.mem_cons_self row rest)
    obtain ⟨i, hid⟩ := Option.isSome_iff_exists.mp hidS
    obtain ⟨k, hk⟩ := Option.isSome_iff_exists.mp hkS
    simp only [List.filterMap_cons, hid] at hnd hfresh
    have hfresh_i : dlookup i reg.components = none :=
      hfresh i (List.mem_cons_self i _)
    have hnd_rest : (rest.filterMap ManifestEntry.id).Nodup := hnd.of_cons
    have hnotmem : i ∉ rest.filterMap ManifestEntry.id := (List.nodup_cons.mp hnd).1
    rw [Registry.register_manifest, hid, hk]
    rw [ih _ (fun x hx => hw x (List.mem_cons_of_mem _ hx)) hnd_rest ?_]
    · simp [length_dinsert_of_fresh _ hfresh_i, Nat.add_assoc, Nat.add_comm 1]
    · intro j hj
      have hji : j ≠ i := fun h => hnotmem (h ▸ hj)
      rw [dlookup_dinsert_ne _ _ hji]
      exact hfresh j (List.mem_cons_of_mem _ hj)

/-- C6: `materialize(uid)` fails with `NotFound(uid)` when no component is
registered under `uid`, fails with `NotFound(kind)` when the registered
component's kind has no bound loader, and otherwise transparently returns
the resolved loader's `build(component)` result unchanged. -/
theorem materialize_dispatch {β : Type} (loadBuild : String → Component → β)
    (reg : Registry) (uid : String) :
    (dlookup uid reg.components = none →
      reg.materialize loadBuild uid = Except.error (RegErr.notFound uid)) ∧
    (∀ c, dlookup uid reg.components = some c →
      dlookup c.kind reg.loaders = none →
      reg.materialize loadBuild uid = Except.error (RegErr.notFound c.kind)) ∧
    (∀ c lpath, dlookup uid reg.components = some c →
      dlookup c.kind reg.loaders = some lpath →
      reg.materialize loadBuild uid = Except.ok (loadBuild lpath c)) := by
  refine ⟨?_, ?_, ?_⟩
  · intro h
    simp [Registry.materialize, h]
  · intro c hc hl
    simp [Registry.materialize, hc, hl]
  · intro c lpath hc hl
    simp [Registry.materialize, hc, hl]

/-- Witness for `materialize_dispatch`: all three branches at concrete
registries. -/
theorem materialize_dispatch_witness :
    regW.materialize loadBuildW "ghost" = Except.error (RegErr.notFound "ghost") ∧
    regNoLoader.materialize loadBuildW "cfg-1" = Except.error (RegErr.notFound "yaml") ∧
    regW.materialize loadBuildW "cfg-1"
      = Except.ok (loadBuildW "ankh_aten.loaders.yaml_loader.YamlLoader" ⟨"cfg-1", "yaml", []⟩) :=
  ⟨(materialize_dispatch loadBuildW regW "ghost").1 rfl,
   (materialize_dispatch loadBuildW regNoLoader "cfg-1").2.1 ⟨"cfg-1", "yaml", []⟩ rfl rfl,
   (materialize_dispatch loadBuildW regW "cfg-1").2.2 ⟨"cfg-1", "yaml", []⟩
     "ankh_aten.loaders.yaml_loader.YamlLoader" rfl rfl⟩

/-- C7 counterexample: the `KeyError` carries only the missing field name,
so two manifests failing at entirely different offending entries report the
identical error — the error does not identify the offending entry. -/
theorem manifest_error_not_entry_specific :
    (Registry.register_manifest [⟨none, some "kind-a", []⟩] Registry.empty).2
        = (Registry.register_manifest [⟨none, some "kind-b", []⟩] Registry.empty).2
      ∧ (⟨none, some "kind-a", []⟩ : ManifestEntry) ≠ ⟨none, some "kind-b", []⟩ := by
  refine ⟨rfl, ?_⟩
  intro h
  have h2 := congrArg ManifestEntry.kind h
  simp at h2

/-- C7 (amended): a manifest entry missing `id` (or, with `id` present,
missing `kind`) makes `registerManifest` fail with a `KeyError` naming the
missing field — not the offending entry — and the registration is not
atomic: the store is left exactly as after registering the well-formed
prefix. -/
theorem register_manifest_nonatomic (pre : List ManifestEntry) (bad : ManifestEntry)
    (rest : List ManifestEntry) (reg : Registry)
    (hpre : ∀ e ∈ pre, e.id.isSome ∧ e.kind.isSome)
    (hbad : bad.id = none ∨ (bad.id.isSome ∧ bad.kind = none)) :
    (Registry.register_manifest (pre ++ bad :: rest) reg).1
        = (Registry.register_manifest pre reg).1
      ∧ (Registry.register_manifest (pre ++ bad :: rest) reg).2
        = some (ManifestErr.keyError (if bad.id = none then "id" else "kind")) := by
  induction pre generalizing reg with
  | nil =>
    rcases hbad with hid | ⟨hidS, hk⟩
    · simp [Registry.register_manifest, hid]
    · obtain ⟨i, hid⟩ := Option.isSome_iff_exists.mp hidS
      simp [Registry.register_manifest, hid, hk]
  | cons e pre' ih =>
    obtain ⟨hidS, hkS⟩ := hpre e (List.mem_cons_self e pre')
    obtain ⟨i, hid⟩ := Option.isSome_iff_exists.mp hidS
    obtain ⟨k, hk⟩ := Option.isSome_iff_exists.mp hkS
    simp only [List.cons_append, Registry.register_manifest, hid, hk]
    exact ih _ (fun x hx => hpre x (List.mem_cons_of_mem _ hx))

/-- Witness for `register_manifest_nonatomic`: a good entry followed by an
entry missing `id`. -/
theorem register_manifest_nonatomic_witness :
    (Registry.register_manifest [entryGood, entryBad] Registry.empty).1
        = (Registry.register_manifest [entryGood] Registry.empty).1
      ∧ (Registry.register_manifest [entryGood, entryBad] Registry.empty).2
        = some (ManifestErr.keyError (if entryBad.id = none then "id" else "kind")) :=
  register_manifest_nonatomic [entryGood] entryBad [] Registry.empty
    (by simp [entryGood]) (Or.inl rfl)

/-- C8 counterexample: registering a manifest of two well-formed entries
into the empty store does not yield `count() == 2` when the entries share
an id — the second overwrites the first and the count is 1. -/
theorem duplicate_manifest_count :
    (Registry.register_manifest dupManifest Registry.empty).1.component_count = 1
      ∧ dupManifest.length = 2 := by
  constructor <;> rfl

/-- C8 (amended): registering N well-formed entries with pairwise-distinct
ids into an empty store yields `count() == N`; registering an entry whose
id is already a key overwrites the prior component without growing the
store; and `register_manifest` preserves the invariant that the store
never holds two components with the same uid. -/
theorem register_manifest_count_invariant (entries : List ManifestEntry)
    (reg : Registry) (e : ManifestEntry) (i k : String)
    (hw : ∀ x ∈ entries, x.id.isSome ∧ x.kind.isSome)
    (hids : (entries.filterMap ManifestEntry.id).Nodup)
    (hnd : (reg.components.map Prod.fst).Nodup)
    (hei : e.id = some i) (hek : e.kind = some k)
    (hdup : (dlookup i reg.components).isSome) :
    (Registry.register_manifest entries Registry.empty).1.component_count = entries.length
    ∧ ((Registry.register_manifest entries reg).1.components.map Prod.fst).Nodup
    ∧ (Registry.register_manifest [e] reg).1.component_count = reg.component_count
    ∧ dlookup i (Registry.register_manifest [e] reg).1.components
        = some ⟨i, k, e.config⟩ := by
  refine ⟨?_, register_manifest_nodup entries reg hnd, ?_, ?_⟩
  · have h := register_manifest_count_aux entries Registry.empty hw hids
      (fun j _ => rfl)
    simpa [Registry.component_count, Registry.empty] using h
  · simp only [Registry.register_manifest, hei, hek, Registry.component_count]
    exact length_dinsert_of_mem _ hdup
  · simp only [Registry.register_manifest, hei, hek]
    exact dlookup_dinsert_self i _ _

/-- Witness for `register_manifest_count_invariant` at two fresh entries
into the empty store and one overwriting entry into `regW`. -/
theorem register_manifest_count_invariant_witness :
    (Registry.register_manifest [entAlpha, entBeta] Registry.empty).1.component_count
        = [entAlpha, entBeta].length
    ∧ ((Registry.register_manifest [entAlpha, entBeta] regW).1.components.map Prod.fst).Nodup
    ∧ (Registry.register_manifest [entOver] regW).1.component_count = regW.component_count
    ∧ dlookup "cfg-1" (Registry.register_manifest [entOver] regW).1.components
        = some ⟨"cfg-1", "http", entOver.config⟩ :=
  register_manifest_count_invariant [entAlpha, entBeta] regW entOver "cfg-1" "http"
    (by simp [entAlpha, entBeta])
    (by simp [entAlpha, entBeta])
    (by simp [regW])
    rfl rfl (by rfl)

/-- C2 (code bug): the claim says a loader's `build` never raises past the
dispatch boundary, but a `python` component whose `factory` config holds
no dot makes `PythonLoader.build` raise `ValueError`: `rsplit(".", 1)`
yields a single element, the two-name unpacking fails, and `ValueError`
is absent from the except clause.  The oracles here always succeed, so the
exception comes from the loader's own string handling. -/
theorem pythonLoader_raises_on_dotless_path :
    PythonLoader.build (fun _ _ => Except.ok ()) (fun _ => Except.ok (Val.vint 0))
        ⟨"svc-1", "python", [("factory", Val.vstr "make_service")]⟩
      = BuildOutcome.raised PyExc.valueError := rfl

/-- C4: every `snapshot()` reports `awareness` as
`(mean(I)/100) * 100` (the 0-100 percentage), a non-negative
`daysRemaining`, and a gate flag that is true exactly when the fitness is
at least the configured threshold `TH = 0.9777`, boundary included. -/
theorem snapshot_fields (now : ℝ) :
    (snapshot now).a = I.sum / (100 * (I.length : ℝ)) * 100
    ∧ 0 ≤ (snapshot now).d
    ∧ ((snapshot now).g = true ↔ TH ≤ (snapshot now).r)
    ∧ TH = 0.9777 := by
  refine ⟨rfl, le_max_left 0 _, ?_, rfl⟩
  show decide (TH ≤ rd awareness_mean 0.998 0.999 0.00023) = true ↔ _
  exact decide_eq_true_iff

/-- The awareness mean hard-coded by the integration vector. -/
theorem awareness_mean_eq : awareness_mean = 1085 / 1200 := by
  simp [awareness_mean, I]
  norm_num

/-- Numeric bound: `awareness_mean ** 0.5 < 0.951` (since
`awareness_mean < 0.951²`). -/
theorem awareness_rpow_half_lt : awareness_mean ^ (0.5 : ℝ) < 0.951 := by
  have ham := awareness_mean_eq
  have h0 : (0 : ℝ) ≤ awareness_mean := by rw [ham]; norm_num
  have hsq : ((0.951 : ℝ) ^ (2 : ℕ)) ^ (0.5 : ℝ) = 0.951 := by
    rw [← Real.rpow_natCast (0.951 : ℝ) 2,
      ← Real.rpow_mul (by norm_num : (0 : ℝ) ≤ 0.951)]
    have h2 : ((2 : ℕ) : ℝ) * (0.5 : ℝ) = 1 := by norm_num
    rw [h2, Real.rpow_one]
  calc awareness_mean ^ (0.5 : ℝ)
      < ((0.951 : ℝ) ^ (2 : ℕ)) ^ (0.5 : ℝ) := by
        apply Real.rpow_lt_rpow h0 _ (by norm_num)
        rw [ham]
        norm_num
  _ = 0.951 := hsq

/-- The snapshot fitness is strictly below the `run` early-exit threshold
0.999: the progress factor alone caps the product at
`1 - (1 - 0.951)/φ³ < 0.999` and every other factor is at most 1. -/
theorem r_const_lt_stop : rd awareness_mean 0.998 0.999 0.00023 < 0.999 := by
  set A := ps (awareness_mean ^ (0.5 : ℝ)) 3 with hA
  have hps1 : A < 0.999 := by
    rw [hA]
    unfold ps
    apply clamp01_lt (by norm_num)
    have hcl : clamp01 (awareness_mean ^ (0.5 : ℝ)) < 0.951 :=
      clamp01_lt (by norm_num) awareness_rpow_half_lt
    have hP3 : P ^ 3 < 4.3 := by norm_num [P]
    have hP3pos := P_pow_pos 3
    have hdiv : (0.001 : ℝ) < (1 - clamp01 (awareness_mean ^ (0.5 : ℝ))) / P ^ 3 := by
      rw [lt_div_iff₀ hP3pos]
      nlinarith
    linarith
  have hA0 : 0 ≤ A := ps_nonneg _ _
  have hB0 := ps_nonneg ((0.998 : ℝ) ^ (0.3 : ℝ)) 3
  have hB1 := ps_le_one ((0.998 : ℝ) ^ (0.3 : ℝ)) 3
  have hC0 := ps_nonneg ((0.999 : ℝ) ^ (0.2 : ℝ)) 3
  have hC1 := ps_le_one ((0.999 : ℝ) ^ (0.2 : ℝ)) 3
  have hS : S = 1 := by norm_num [S]
  unfold rd
  rw [hS, one_mul, ← hA]
  have h1 : A * ps ((0.998 : ℝ) ^ (0.3 : ℝ)) 3 ≤ A := mul_le_of_le_one_right hA0 hB1
  have h1' : 0 ≤ A * ps ((0.998 : ℝ) ^ (0.3 : ℝ)) 3 := mul_nonneg hA0 hB0
  have h2 : A * ps ((0.998 : ℝ) ^ (0.3 : ℝ)) 3 * ps ((0.999 : ℝ) ^ (0.2 : ℝ)) 3 ≤ A :=
    le_trans (mul_le_of_le_one_right h1' hC1) h1
  have h2' : 0 ≤ A * ps ((0.998 : ℝ) ^ (0.3 : ℝ)) 3 * ps ((0.999 : ℝ) ^ (0.2 : ℝ)) 3 :=
    mul_nonneg h1' hC0
  have h3 : A * ps ((0.998 : ℝ) ^ (0.3 : ℝ)) 3 * ps ((0.999 : ℝ) ^ (0.2 : ℝ)) 3
      * (1 - 0.00023) ≤ A * ps ((0.998 : ℝ) ^ (0.3 : ℝ)) 3 * ps ((0.999 : ℝ) ^ (0.2 : ℝ)) 3 :=
    mul_le_of_le_one_right h2' (by norm_num)
  linarith

/-- `run_cycle` leaves `cycle_count` exactly one higher. -/
theorem run_cycle_cycle_count (sample : Experiment → ℝ) (now1 now2 : ℝ)
    (st : LoopState) :
    (run_cycle sample now1 now2 st).2.cycle_count = st.cycle_count + 1 := rfl

/-- The early-exit test of `run` never fires, so `run_from` always runs
its full budget of cycles. -/
theorem run_from_cycle_count (sample : ℕ → Experiment → ℝ)
    (times : ℕ → ℝ × ℝ × ℝ) :
    ∀ (m i : ℕ) (st : LoopState),
      (run_from sample times i m st).cycle_count = st.cycle_count + m := by
  intro m
  induction m with
  | zero => intro i st; rfl
  | succ k ih =>
    intro i st
    have hr : ¬ ((0.999 : ℝ) ≤ (snapshot (times i).2.2).r) :=
      not_le.mpr r_const_lt_stop
    simp only [run_from]
    rw [if_neg hr, ih, run_cycle_cycle_count]
    omega

/-- C3: the snapshot fitness `r` is one fixed constant — `rd` of the
hard-coded awareness mean and the default trust/coherence/decay — whatever
the call time (and the model takes no registry or loop state at all);
hence `learn` always computes `r_gain = 0`, and `run(max_cycles)` never
early-exits: it always runs exactly `max_cycles` cycles. -/
theorem fitness_constant_loop_runs_full (t1 t2 : ℝ)
    (results : List ExperimentResult) (st st2 : LoopState)
    (sample : ℕ → Experiment → ℝ) (times : ℕ → ℝ × ℝ × ℝ) (max_cycles : ℕ) :
    (snapshot t1).r = rd awareness_mean 0.998 0.999 0.00023
    ∧ (snapshot t1).r = (snapshot t2).r
    ∧ (learn t2 results (snapshot t1) st).1.r_gain = 0
    ∧ (run sample times max_cycles st2).cycle_count = st2.cycle_count + max_cycles := by
  refine ⟨rfl, rfl, ?_, run_from_cycle_count sample times max_cycles 0 st2⟩
  show (snapshot t2).r - (snapshot t1).r = 0
  exact sub_self _

theorem plan_fst (snap : Snapshot) (st : LoopState) :
    (plan snap st).1 = planned_experiments snap := rfl

theorem countEvents_append (a b : List AuditEvent) (ty : String) :
    countEvents (a ++ b) ty = countEvents a ty + countEvents b ty := by
  simp [countEvents, List.filter_append]

theorem countEvents_singleton (cyc : ℕ) (ty ty' : String) (d : List (String × PVal)) :
    countEvents [⟨cyc, ty, d⟩] ty' = if ty = ty' then 1 else 0 := by
  by_cases h : ty = ty' <;> simp [countEvents, h]

theorem countEvents_map_mk (cyc : ℕ) (ty ty' : String)
    (f : ExperimentResult → List (String × PVal)) (rs : List ExperimentResult) :
    countEvents (rs.map (fun r => (⟨cyc, ty, f r⟩ : AuditEvent))) ty'
      = if ty = ty' then rs.length else 0 := by
  induction rs with
  | nil => simp [countEvents]
  | cons r rest ih =>
    by_cases h : ty = ty'
    · simp [countEvents, h, List.filter_cons] at ih ⊢
      omega
    · simp [countEvents, h, List.filter_cons] at ih ⊢

/-- C9: every `run_cycle()` call increments `cycle_count` by exactly 1,
adds the plan phase's experiment count to `total_experiments` (all planned
experiments are executed), and appends exactly one `reflect` audit event,
one `plan` event, one `act` event per executed experiment, and one
`learn` event. -/
theorem run_cycle_effects (sample : Experiment → ℝ) (t1 t2 : ℝ) (st : LoopState) :
    (run_cycle sample t1 t2 st).2.cycle_count = st.cycle_count + 1
    ∧ (run_cycle sample t1 t2 st).2.total_experiments
        = st.total_experiments + (planned_experiments (snapshot t1)).length
    ∧ countEvents (run_cycle sample t1 t2 st).2.events "reflect"
        = countEvents st.events "reflect" + 1
    ∧ countEvents (run_cycle sample t1 t2 st).2.events "plan"
        = countEvents st.events "plan" + 1
    ∧ countEvents (run_cycle sample t1 t2 st).2.events "act"
        = countEvents st.events "act" + (planned_experiments (snapshot t1)).length
    ∧ countEvents (run_cycle sample t1 t2 st).2.events "learn"
        = countEvents st.events "learn" + 1 := by
  refine ⟨rfl, ?_, ?_, ?_, ?_, ?_⟩
  · simp only [run_cycle, reflect, plan, act, learn, log_event, planned_experiments,
      experiments_per_cycle, List.length_map]
  · simp only [run_cycle, reflect, plan, act, learn, log_event]
    rw [countEvents_append, countEvents_append, countEvents_append, countEvents_append,
      countEvents_singleton, countEvents_singleton, countEvents_singleton,
      countEvents_map_mk]
    simp
  · simp only [run_cycle, reflect, plan, act, learn, log_event]
    rw [countEvents_append, countEvents_append, countEvents_append, countEvents_append,
      countEvents_singleton, countEvents_singleton, countEvents_singleton,
      countEvents_map_mk]
    simp
  · simp only [run_cycle, reflect, plan, act, learn, log_event]
    rw [countEvents_append, countEvents_append, countEvents_append, countEvents_append,
      countEvents_singleton, countEvents_singleton, countEvents_singleton,
      countEvents_map_mk]
    simp [planned_experiments, experiments_per_cycle]
  · simp only [run_cycle, reflect, plan, act, learn, log_event]
    rw [countEvents_append, countEvents_append, countEvents_append, countEvents_append,
      countEvents_singleton, countEvents_singleton, countEvents_singleton,
      countEvents_map_mk]
    simp
